import Mathlib

/-!
Verification development for the oclpy repository (gating engine and matrix
conditioning utilities).

Shallow embedding conventions:
* Python floats are modelled as `ℚ` (exact arithmetic; the float literal
  `1e99` is modelled as `10 ^ 99`).
* numpy 2-D arrays are `List (List ℚ)` (rectangular by invariant).
* Fallible Python code (raising exceptions) is embedded as `Except String`.
* The fitted scipy spline (the in-domain values of `interp1d` /
  `RectBivariateSpline` of degree 3) is an external numerical kernel; where a
  cubic kernel's in-domain values are irrelevant to every claim, it is kept
  as an explicit function parameter so every theorem holds for an arbitrary
  kernel.  The degree-1 (bilinear) kernel of `RectBivariateSpline(kx=1, ky=1)`
  is modelled exactly.
-/

set_option maxRecDepth 40000

namespace OCL

/-- `Except` success test (like checking that no Python exception is raised). -/
def isOkE {α : Type} (e : Except String α) : Bool :=
  match e with
  | .ok _ => true
  | .error _ => false

/-- Payload of a successful `Except`, with `[]`-style defaults supplied by the caller. -/
def okD {α : Type} (d : α) (e : Except String α) : α :=
  match e with
  | .ok a => a
  | .error _ => d

/-- Python's binary `min` on floats, written out with its defining `if` so
that concrete instances evaluate by rewriting. -/
def qmin (a b : ℚ) : ℚ := if a ≤ b then a else b

/-- Python's binary `max` on floats. -/
def qmax (a b : ℚ) : ℚ := if b ≤ a then a else b

/-- `np.abs` on a float. -/
def qabs (a : ℚ) : ℚ := if a < 0 then -a else a

/-- Python `min(seq)` over a nonempty list (`0` junk value on `[]`, never used there). -/
def listMin : List ℚ → ℚ
  | [] => 0
  | a :: rest => rest.foldl qmin a

/-- Python `max(seq)` over a nonempty list (`0` junk value on `[]`, never used there). -/
def listMax : List ℚ → ℚ
  | [] => 0
  | a :: rest => rest.foldl qmax a

/-- numpy `arr[-1]`: last element of a list (`0` junk value on `[]`). -/
def lastD (l : List ℚ) : ℚ := l.getD (l.length - 1) 0

/-- Models the Python float literal `1e99` used by `Gate.defaultMax` /
`Gate.defaultMin` in `src/oclpy/gate.py`. -/
def bigVal : ℚ := 10 ^ 99

/-- Embeds `oclpy.interpolation.Interpolation` as configured through
`interp1d(x, y, kind='cubic', bounds_error=False, fill_value=(lo, hi))`:
the sample arrays, the two out-of-domain fill values, and the fitted
in-domain spline abstracted as `kern` (scipy numerics; no claim depends on
its in-domain values). -/
structure Interpolation where
  xs : List ℚ
  ys : List ℚ
  fill_below : ℚ
  fill_above : ℚ
  kern : ℚ → ℚ

/-- Evaluation of the wrapped `interp1d` with `bounds_error=False` and a
2-tuple `fill_value`: per scipy's documented contract, queries strictly
below the domain minimum give the first fill value, queries strictly above
the domain maximum give the second, and in-domain queries hit the spline. -/
def Interpolation.eval (f : Interpolation) (q : ℚ) : ℚ :=
  if q < listMin f.xs then f.fill_below
  else if q > listMax f.xs then f.fill_above
  else f.kern q

/-- `any(x[i] appears again later)`: duplicate test on the sample
positions, written recursively so concrete instances evaluate. -/
def hasDup : List ℚ → Bool
  | [] => false
  | a :: t => t.contains a || hasDup t

/-- Modelled from scipy's documented `interp1d` construction-time validation
(the body of `Interpolation.__init__` delegates straight to `interp1d`):
`x` and `y` must have equal length, a spline of order k needs at least
k + 1 points (4 for `kind='cubic'`), at least 2 points are required in
general, and for spline kinds `interp1d` (which sorts `x` itself when
`assume_sorted=False`) hands the sorted samples to `make_interp_spline`,
which rejects duplicate `x` values — so cubic construction also requires
pairwise-distinct `x`.  `Interpolation.__init__` itself only validates that
both `x` and `y` were supplied, which is always the case on the paths
embedded here. -/
def interp1dCheck (kindStr : String) (x y : List ℚ) : Except String Unit :=
  if x.length ≠ y.length then
    .error ("x and y arrays must be equal in length along interpolation axis")
  else if kindStr = ("cubic") ∧ x.length < 4 then
    .error ("x and y arrays must have at least 4 entries")
  else if x.length < 2 then
    .error ("x and y arrays must have at least 2 entries")
  else if kindStr = ("cubic") ∧ hasDup x = true then
    .error ("Expect x to not have duplicates")
  else .ok ()

/-- `Interpolation.__init__(x, y, kind=kindStr, bounds_error=False,
fill_value=fill)` with the fitted spline abstracted as `kern`. -/
def interpolationInit (x y : List ℚ) (kindStr : String) (fill : ℚ × ℚ)
    (kern : ℚ → ℚ) : Except String Interpolation :=
  match interp1dCheck kindStr x y with
  | .error e => .error e
  | .ok _ => .ok ⟨x, y, fill.1, fill.2, kern⟩

/-- One row of the sample table (pandas dataframe with columns
`quad`, `ring`, `kind`, `lim`, `x`, `y`). -/
structure Row where
  quad : ℤ
  ring : ℤ
  kind : String
  lim : String
  x : ℚ
  y : ℚ
deriving DecidableEq

/-- Embeds `oclpy.gate.Gate`: the two dicts keyed by `(quad, ring, kind)`
(as association lists with distinct keys) and the default flag. -/
structure Gate where
  gates_low : List ((ℤ × ℤ × String) × Interpolation)
  gates_high : List ((ℤ × ℤ × String) × Interpolation)
  Default_return : Bool

/-- `Gate.defaultMax` (scalar path): `1e99 if self.Default_return else 0`. -/
def Gate.defaultMax (g : Gate) (_x : ℚ) : ℚ :=
  if g.Default_return then bigVal else 0

/-- `Gate.defaultMin` (scalar path): `0 if self.Default_return else 1e99`. -/
def Gate.defaultMin (g : Gate) (_x : ℚ) : ℚ :=
  if g.Default_return then 0 else bigVal

/-- `Gate.__call__(x, y, quad, ring, kind)` on scalars:
`np.logical_and(y < max_gate(x), y > min_gate(x))` where each side is the
dict entry for the key or the corresponding default function. -/
def Gate.call (g : Gate) (x y : ℚ) (quad ring2 : ℤ) (kind : String) : Bool :=
  let maxv : ℚ :=
    match List.lookup (quad, ring2, kind) g.gates_high with
    | some f => f.eval x
    | none => g.defaultMax x
  let minv : ℚ :=
    match List.lookup (quad, ring2, kind) g.gates_low with
    | some f => f.eval x
    | none => g.defaultMin x
  decide (y < maxv) && decide (y > minv)

/-- The `(quad, ring, kind)` triples `Gate.__init__` iterates over:
the cartesian product of the unique values of each column. -/
def keyTriples (df : List Row) : List (ℤ × ℤ × String) :=
  ((df.map Row.quad).dedup).flatMap fun q =>
    ((df.map Row.ring).dedup).flatMap fun r =>
      ((df.map Row.kind).dedup).map fun k => (q, r, k)

/-- Rows of `df` with the given `(quad, ring, kind)` and `lim` values
(the dataframe `.loc` filters in `Gate.__init__`). -/
def subRows (df : List Row) (q r : ℤ) (k lim : String) : List Row :=
  df.filter fun row => row.quad == q && row.ring == r && row.kind == k && row.lim == lim

/-- The `if df_qr_low['x'].count() > 0:` arm of `Gate.__init__` for one key:
fit a cubic `Interpolation` over the `lim='min'` subset with
`fill_value=(max(y), min(y))` and store it in `gates_low`. -/
def gateAddLow (K : List ℚ → List ℚ → ℚ → ℚ) (df : List Row)
    (q r : ℤ) (k : String) (st : Gate) : Except String Gate :=
  let sub := subRows df q r k ("min")
  if sub.length > 0 then
    match interpolationInit (sub.map Row.x) (sub.map Row.y) ("cubic")
        (listMax (sub.map Row.y), listMin (sub.map Row.y))
        (K (sub.map Row.x) (sub.map Row.y)) with
    | .error e => .error e
    | .ok f => .ok { st with gates_low := st.gates_low ++ [((q, r, k), f)] }
  else .ok st

/-- The `if df_qr_max['x'].count() > 0:` arm of `Gate.__init__` for one key. -/
def gateAddHigh (K : List ℚ → List ℚ → ℚ → ℚ) (df : List Row)
    (q r : ℤ) (k : String) (st : Gate) : Except String Gate :=
  let sub := subRows df q r k ("max")
  if sub.length > 0 then
    match interpolationInit (sub.map Row.x) (sub.map Row.y) ("cubic")
        (listMax (sub.map Row.y), listMin (sub.map Row.y))
        (K (sub.map Row.x) (sub.map Row.y)) with
    | .error e => .error e
    | .ok f => .ok { st with gates_high := st.gates_high ++ [((q, r, k), f)] }
  else .ok st

/-- One iteration of the triple-nested loop body of `Gate.__init__`. -/
def gateStep (K : List ℚ → List ℚ → ℚ → ℚ) (df : List Row)
    (st : Gate) (t : ℤ × ℤ × String) : Except String Gate :=
  match gateAddLow K df t.1 t.2.1 t.2.2 st with
  | .error e => .error e
  | .ok st1 => gateAddHigh K df t.1 t.2.1 t.2.2 st1

/-- `Gate.__init__(dataframe, default)`: starts from empty dicts and runs the
loop body over every `(quad, ring, kind)` combination; any exception from an
`Interpolation` construction aborts the whole construction.  `K` abstracts
the fitted cubic spline kernels (scipy numerics). -/
def gateInit (K : List ℚ → List ℚ → ℚ → ℚ) (df : List Row) (default : Bool) :
    Except String Gate :=
  (keyTriples df).foldlM (gateStep K df) ⟨[], [], default⟩

/-- Embeds `oclpy.gate.ActGate` (the BoundaryPair of the spec): optional
upper and lower interpolants plus the default outcome. -/
structure ActGate where
  max : Option Interpolation
  min : Option Interpolation
  default : Bool

/-- `ActGate.__call__(x, y)` on scalar inputs.  When either side is absent
the Python code only returns a value for `np.ndarray` inputs; with a scalar
it falls off the end of the function and returns `None`, embedded as
`none`. -/
def ActGate.callScalar (g : ActGate) (x y : ℚ) : Option Bool :=
  match g.max, g.min with
  | some fmax, some fmin =>
      some (decide (y < fmax.eval x) && decide (y > fmin.eval x))
  | _, _ => none

/-- `ActGate.__call__(x, y)` on same-shape array inputs: with a side absent
it returns `np.full(x.shape, self.default)`, otherwise the elementwise
`np.logical_and(y < self.max(x), y > self.min(x))`. -/
def ActGate.callArray (g : ActGate) (x y : List ℚ) : Option (List Bool) :=
  match g.max, g.min with
  | some fmax, some fmin =>
      some (List.zipWith
        (fun xv yv => decide (yv < fmax.eval xv) && decide (yv > fmin.eval xv)) x y)
  | _, _ => some (x.map fun _ => g.default)

/-- Rows of `df` with the given `kind` and `lim` (the `.loc` filters of
`GateSector.__init__`, which ignores `quad` / `ring`). -/
def sectorRows (df : List Row) (k lim : String) : List Row :=
  df.filter fun row => row.kind == k && row.lim == lim

/-- One iteration of the loop body of `GateSector.__init__`: with both the
`min` and the `max` subsets nonempty, fit both cubic interpolants and store
`ActGate(max_interp, min_interp)` (whose `Default` argument defaults to
`True` in Python); otherwise store `ActGate(Default=self.Default_return)`. -/
def sectorStep (K : List ℚ → List ℚ → ℚ → ℚ) (df : List Row) (default : Bool)
    (st : List (String × ActGate)) (k : String) :
    Except String (List (String × ActGate)) :=
  let lowR := sectorRows df k ("min")
  let maxR := sectorRows df k ("max")
  if lowR.length > 0 ∧ maxR.length > 0 then
    match interpolationInit (maxR.map Row.x) (maxR.map Row.y) ("cubic")
        (listMax (maxR.map Row.y), listMin (maxR.map Row.y))
        (K (maxR.map Row.x) (maxR.map Row.y)) with
    | .error e => .error e
    | .ok fmax =>
      match interpolationInit (lowR.map Row.x) (lowR.map Row.y) ("cubic")
          (listMax (lowR.map Row.y), listMin (lowR.map Row.y))
          (K (lowR.map Row.x) (lowR.map Row.y)) with
      | .error e => .error e
      | .ok fmin => .ok (st ++ [(k, ⟨some fmax, some fmin, true⟩)])
  else .ok (st ++ [(k, ⟨none, none, default⟩)])

/-- `GateSector.__init__(dataframe, default)`: builds the `kind`-keyed dict
of `ActGate`s by running the loop body over the unique `kind` values. -/
def gateSectorInit (K : List ℚ → List ℚ → ℚ → ℚ) (df : List Row)
    (default : Bool) : Except String (List (String × ActGate)) :=
  ((df.map Row.kind).dedup).foldlM (sectorStep K df default) []

/-! ### `oclpy.library`: fill_negative, cut_diagonal, interpolate_matrix_2D -/

/-- `np.argmax(l)`: index of the first occurrence of the maximum value
(`0` junk value on `[]`; numpy raises there, a case no embedded caller
reaches for the window sizes used in the claims). -/
def argmaxIdx : List ℚ → Nat
  | [] => 0
  | [_] => 0
  | a :: rest =>
    let k := argmaxIdx rest
    if rest.getD k 0 > a then k + 1 else 0

/-- `np.argmin(l)`: index of the first occurrence of the minimum value
(`0` junk value on `[]`). -/
def argminIdx : List ℚ → Nat
  | [] => 0
  | [_] => 0
  | a :: rest =>
    let k := argminIdx rest
    if rest.getD k 0 < a then k + 1 else 0

/-- `i_from_E(E, E_array)`: index of the `E_array` value closest to `E`,
via `np.argmin(np.abs(E_array - E))`. -/
def i_from_E (E : ℚ) (E_array : List ℚ) : Nat :=
  argminIdx (E_array.map fun v => qabs (v - E))

/-- The per-row loop body of `fill_negative` in `oclpy.library`: for every
column `j` whose ORIGINAL value is negative, slice the window
`row[max(0, j - w) : min(ncols, j + w)]`, take `i_max = np.argmax(window)`
(an index RELATIVE to the window start), probe `matrix[i_Ex, i_max]` —
the source's use of the relative index as an absolute column index — and,
when that probed value is positive, write `min(0, positive + negative)`
into the output row.  All reads are from the original row. -/
def fillNegRow (row : List ℚ) (w : Nat) : List ℚ :=
  (List.range row.length).foldl
    (fun out j =>
      if row.getD j 0 < 0 then
        let lo := j - w
        let hi := min row.length (j + w)
        let window := (row.drop lo).take (hi - lo)
        let i_max := argmaxIdx window
        let positive := row.getD i_max 0
        if positive ≤ 0 then out
        else out.set j (qmin 0 (positive + row.getD j 0))
      else out)
    row

/-- `fill_negative(matrix, window_size)`: the row loop (rows are
independent; `matrix.shape[1]` is each row's length in the rectangular
embedding). -/
def fill_negative (matrix : List (List ℚ)) (window_size : Nat) : List (List ℚ) :=
  matrix.map fun row => fillNegRow row window_size

/-- Modelled from the spec's words (§4.6), for comparison with the source's
`fill_negative`: for each negative cell, examine the window
`[max(0, j - w), min(ncols, j + w))` of that row, find the maximum VALUE in
that window, and if it is positive set the cell to
`min(0, max_value + negative_value)`, else leave the cell unchanged. -/
def fillNegRowSpec (row : List ℚ) (w : Nat) : List ℚ :=
  (List.range row.length).foldl
    (fun out j =>
      if row.getD j 0 < 0 then
        let lo := j - w
        let hi := min row.length (j + w)
        let window := (row.drop lo).take (hi - lo)
        let m := listMax window
        if m ≤ 0 then out
        else out.set j (qmin 0 (m + row.getD j 0))
      else out)
    row

/-- Modelled from the spec's words (§4.6): row-independent application of
`fillNegRowSpec`. -/
def fill_negative_spec (matrix : List (List ℚ)) (window_size : Nat) :
    List (List ℚ) :=
  matrix.map fun row => fillNegRowSpec row window_size

/-- `line(x, points)` with `points = [x1, y1, x2, y2]`:
`a = (points[3] - points[1]) / float(points[2] - points[0])`,
`b = points[1] - a * points[0]`, result `a * x + b`.  The division is ℚ's
total division (`_ / 0 = 0`); in numpy a zero denominator yields a
non-finite slope with a warning, NOT an exception, so the control flow
(no exception raised) is modelled faithfully even though the degenerate
VALUE differs; no theorem below depends on the degenerate value. -/
def line (x : ℚ) (points : ℚ × ℚ × ℚ × ℚ) : ℚ :=
  let a := (points.2.2.2 - points.2.1) / (points.2.2.1 - points.1)
  let b := points.2.1 - a * points.1
  a * x + b

/-- `make_mask(Ex_array, Eg_array, Ex1, Eg1, Ex2, Eg2)`: nearest-bin indices
of the two points as `cut_points = [j1, i1, j2, i2]`, then over the index
meshgrid the mask is `1` where `i > line(j, cut_points)` and `0`
elsewhere. -/
def make_mask (Ex_array Eg_array : List ℚ) (Ex1 Eg1 Ex2 Eg2 : ℚ) :
    List (List ℕ) :=
  let cp : ℚ × ℚ × ℚ × ℚ :=
    ((i_from_E Eg1 Eg_array : ℕ), (i_from_E Ex1 Ex_array : ℕ),
     (i_from_E Eg2 Eg_array : ℕ), (i_from_E Ex2 Ex_array : ℕ))
  (List.range Ex_array.length).map fun i =>
    (List.range Eg_array.length).map fun j =>
      if (i : ℚ) > line (j : ℚ) cp then 1 else 0

/-- `cut_diagonal(matrix, Ex_array, Eg_array, E1, E2)`: builds the mask and
returns `np.where(mask, matrix, 0)`.  The Python body contains no `raise`
and no guard on the two column indices; the only assertion on this path
(`E_array.ndim == 1` inside `i_from_E`) always holds for 1-D axis lists, so
the embedded function always returns `.ok`.  (numpy's `argmin` would raise
on an EMPTY axis array; theorems below therefore assume nonempty axes.) -/
def cut_diagonal (matrix : List (List ℚ)) (Ex_array Eg_array : List ℚ)
    (E1 E2 : ℚ × ℚ) : Except String (List (List ℚ)) :=
  let mask := make_mask Ex_array Eg_array E1.1 E1.2 E2.1 E2.2
  .ok ((List.range Ex_array.length).map fun i =>
    (List.range Eg_array.length).map fun j =>
      if (mask.getD i []).getD j 0 ≠ 0 then (matrix.getD i []).getD j 0 else 0)

/-- Cell-search of the degree-1 `RectBivariateSpline`: the index `k`
(clamped to `[0, n-2]`) of the source interval `[xs[k], xs[k+1]]` holding
the query, for a strictly increasing axis. -/
def cellIdx : List ℚ → ℚ → Nat
  | _ :: b :: c :: rest, u => if u < b then 0 else cellIdx (b :: c :: rest) u + 1
  | _, _ => 0

/-- Evaluation of `RectBivariateSpline(E0, E1, M, kx=1, ky=1)` at `(u, v)`:
the bilinear interpolation of `M` over the source grid cell holding the
query (exact for a degree-1 spline, which interpolates the data). -/
def bilinear (xin yin : List ℚ) (M : List (List ℚ)) (u v : ℚ) : ℚ :=
  let i := cellIdx xin u
  let j := cellIdx yin v
  let x0 := xin.getD i 0
  let x1 := xin.getD (i + 1) 0
  let y0 := yin.getD j 0
  let y1 := yin.getD (j + 1) 0
  let t := (u - x0) / (x1 - x0)
  let s := (v - y0) / (y1 - y0)
  (1 - t) * (1 - s) * ((M.getD i []).getD j 0)
    + t * (1 - s) * ((M.getD (i + 1) []).getD j 0)
    + (1 - t) * s * ((M.getD i []).getD (j + 1) 0)
    + t * s * ((M.getD (i + 1) []).getD (j + 1) 0)

/-- One output cell of `interpolate_matrix_2D`: the spline value where the
target coordinates lie STRICTLY inside the source spans, and `0` where the
mask rows/columns (`E0_array_out <= E0_array_in[0]`,
`E0_array_out >= E0_array_in[-1]`, likewise for columns) zero it. -/
def resampleEntry (M : List (List ℚ)) (xin yin : List ℚ) (u v : ℚ) : ℚ :=
  if xin.getD 0 0 < u ∧ u < lastD xin ∧ yin.getD 0 0 < v ∧ v < lastD yin
  then bilinear xin yin M u v else 0

/-- The full output grid of `interpolate_matrix_2D` (spline evaluation on
the target meshgrid followed by the rectangular zero mask). -/
def resampleGrid (M : List (List ℚ)) (xin yin xout yout : List ℚ) :
    List (List ℚ) :=
  xout.map fun u => yout.map fun v => resampleEntry M xin yin u v

/-- `interpolate_matrix_2D(matrix_in, E0_array_in, E1_array_in,
E0_array_out, E1_array_out)`: raises on a shape mismatch between the matrix
and the input axes, else returns the masked bilinear resampling. -/
def interpolate_matrix_2D (M : List (List ℚ)) (xin yin xout yout : List ℚ) :
    Except String (List (List ℚ)) :=
  if M.length = xin.length ∧ ∀ r ∈ M, r.length = yin.length then
    .ok (resampleGrid M xin yin xout yout)
  else .error ("Shape mismatch between matrix_in and energy arrays")

/-! ### Concrete instances used by counterexamples and witnesses -/

/-- A trivial stand-in for the abstracted cubic spline kernels; the results
below hold for an arbitrary kernel, and concrete instances use this one. -/
def K0 : List ℚ → List ℚ → ℚ → ℚ := fun _ _ _ => 0

/-- A sample table with four `lim='min'` rows (and no `max` rows) for the
key `(1, 1, "p")`. -/
def dfLowOnly : List Row :=
  [⟨1, 1, "p", "min", 1, 7⟩, ⟨1, 1, "p", "min", 2, 8⟩,
   ⟨1, 1, "p", "min", 3, 9⟩, ⟨1, 1, "p", "min", 4, 10⟩]

/-- Like `dfLowOnly` but with a different lower boundary curve
(`y` samples `1..4` instead of `7..10`). -/
def dfLowOnly2 : List Row :=
  [⟨1, 1, "p", "min", 1, 1⟩, ⟨1, 1, "p", "min", 2, 2⟩,
   ⟨1, 1, "p", "min", 3, 3⟩, ⟨1, 1, "p", "min", 4, 4⟩]

/-- The Gate built from `dfLowOnly` with `default=True`: its key
`(1, 1, "p")` has a fitted lower curve and no upper curve. -/
def gLowOnly : Gate := okD ⟨[], [], true⟩ (gateInit K0 dfLowOnly true)

/-- The Gate built from `dfLowOnly2` with `default=True`. -/
def gLowOnly2 : Gate := okD ⟨[], [], true⟩ (gateInit K0 dfLowOnly2 true)

/-- The interpolant `Gate.__init__` stores for `dfLowOnly`'s `min` subset. -/
def fLowOnly : Interpolation :=
  ⟨[1, 2, 3, 4], [7, 8, 9, 10], listMax [7, 8, 9, 10], listMin [7, 8, 9, 10],
   K0 [1, 2, 3, 4] [7, 8, 9, 10]⟩

/-- A sample table whose only `(quad, ring, kind, lim)` subset has exactly
two rows (two samples, equal-length `x` and `y`). -/
def dfTwoRows : List Row :=
  [⟨1, 1, "p", "min", 0, 0⟩, ⟨1, 1, "p", "min", 1, 1⟩]

/-- A sample table with four `lim='max'` rows (and no `min` rows) for the
key `(1, 1, "p")`. -/
def dfHighOnly : List Row :=
  [⟨1, 1, "p", "max", 1, 7⟩, ⟨1, 1, "p", "max", 2, 8⟩,
   ⟨1, 1, "p", "max", 3, 9⟩, ⟨1, 1, "p", "max", 4, 10⟩]

/-- The Gate built from `dfHighOnly` with `default=True`: its key
`(1, 1, "p")` has a fitted upper curve and no lower curve. -/
def gHighOnly : Gate := okD ⟨[], [], true⟩ (gateInit K0 dfHighOnly true)

/-- A one-row sample table: the kind `"p"` has a `min` row and no `max`
row. -/
def dfOneMin : List Row := [⟨1, 1, "p", "min", 0, 0⟩]

/-- An interpolant as `Gate.__init__` would configure it over samples
`x = [1, 2, 3, 4]`, `y = [7, 8, 9, 10]`. -/
def fWide : Interpolation :=
  ⟨[1, 2, 3, 4], [7, 8, 9, 10], listMax [7, 8, 9, 10], listMin [7, 8, 9, 10],
   K0 [] []⟩

/-! ### Shared lemmas -/

lemma qmin_le_left (a b : ℚ) : qmin a b ≤ a := by
  unfold qmin
  by_cases h : a ≤ b
  · rw [if_pos h]
  · rw [if_neg h]
    exact le_of_lt (not_le.mp h)

lemma le_qmax_left (a b : ℚ) : a ≤ qmax a b := by
  unfold qmax
  by_cases h : b ≤ a
  · rw [if_pos h]
  · rw [if_neg h]
    exact le_of_lt (not_le.mp h)

lemma foldl_qmin_le : ∀ (l : List ℚ) (a : ℚ), l.foldl qmin a ≤ a
  | [], a => le_refl a
  | b :: t, a => le_trans (foldl_qmin_le t (qmin a b)) (qmin_le_left a b)

lemma le_foldl_qmax : ∀ (l : List ℚ) (a : ℚ), a ≤ l.foldl qmax a
  | [], a => le_refl a
  | b :: t, a => le_trans (le_qmax_left a b) (le_foldl_qmax t (qmax a b))

lemma listMin_le_listMax {l : List ℚ} (h : l ≠ []) : listMin l ≤ listMax l := by
  cases l with
  | nil => exact absurd rfl h
  | cons a t =>
    exact le_trans (foldl_qmin_le t a) (le_foldl_qmax t a)

lemma isOkE_iff {α : Type} (e : Except String α) :
    isOkE e = true ↔ ∃ a, e = Except.ok a := by
  cases e <;> simp [isOkE]

lemma hasDup_eq_false_iff : ∀ (l : List ℚ), hasDup l = false ↔ l.Nodup
  | [] => by simp [hasDup]
  | a :: t => by
    have ih := hasDup_eq_false_iff t
    constructor
    · intro h
      have h2 : t.contains a = false ∧ hasDup t = false := by
        have := h
        unfold hasDup at this
        exact Bool.or_eq_false_iff.mp this
      rw [List.nodup_cons]
      refine ⟨?_, ih.mp h2.2⟩
      intro hmem
      have : t.contains a = true := List.elem_eq_true_of_mem hmem
      rw [h2.1] at this
      exact absurd this (by simp)
    · intro h
      rw [List.nodup_cons] at h
      have h1 : t.contains a = false := by
        rcases Bool.eq_false_or_eq_true (t.contains a) with ht | hf
        · exact absurd (List.mem_of_elem_eq_true ht) h.1
        · exact hf
      unfold hasDup
      rw [h1, ih.mpr h.2]
      rfl

lemma interp1dCheck_cubic_ok {x y : List ℚ} {u : Unit}
    (h : interp1dCheck ("cubic") x y = Except.ok u) :
    x.length = y.length ∧ 4 ≤ x.length ∧ x.Nodup := by
  unfold interp1dCheck at h
  by_cases h1 : x.length ≠ y.length
  · rw [if_pos h1] at h
    exact absurd h (by simp)
  · rw [if_neg h1] at h
    by_cases h2 : ("cubic") = ("cubic") ∧ x.length < 4
    · rw [if_pos h2] at h
      exact absurd h (by simp)
    · rw [if_neg h2] at h
      have h4 : ¬ x.length < 4 := fun hlt => h2 ⟨rfl, hlt⟩
      rw [if_neg (by omega : ¬ x.length < 2)] at h
      by_cases h5 : ("cubic") = ("cubic") ∧ hasDup x = true
      · rw [if_pos h5] at h
        exact absurd h (by simp)
      · rw [if_neg h5] at h
        have h6 : hasDup x = false := by
          rcases Bool.eq_false_or_eq_true (hasDup x) with ht | hf
          · exact absurd ⟨rfl, ht⟩ h5
          · exact hf
        exact ⟨not_not.mp h1, by omega, (hasDup_eq_false_iff x).mp h6⟩

lemma interp1dCheck_cubic_passes {x y : List ℚ}
    (hlen : x.length = y.length) (h4 : 4 ≤ x.length) (hnd : x.Nodup) :
    interp1dCheck ("cubic") x y = Except.ok () := by
  have hdf : hasDup x = false := (hasDup_eq_false_iff x).mpr hnd
  unfold interp1dCheck
  rw [if_neg (not_not.mpr hlen)]
  rw [if_neg (by simp; omega)]
  rw [if_neg (by omega)]
  rw [if_neg (by simp [hdf])]

lemma interpolationInit_cubic_ok_iff (x y : List ℚ) (fill : ℚ × ℚ)
    (fK : ℚ → ℚ) :
    isOkE (interpolationInit x y ("cubic") fill fK) = true ↔
      (x.length = y.length ∧ 4 ≤ x.length ∧ x.Nodup) := by
  unfold interpolationInit
  constructor
  · intro hok
    rcases hc : interp1dCheck ("cubic") x y with e | u
    · rw [hc] at hok
      simp [isOkE] at hok
    · exact interp1dCheck_cubic_ok hc
  · intro hc
    rw [interp1dCheck_cubic_passes hc.1 hc.2.1 hc.2.2]
    rfl

lemma foldlM_ok {α β : Type} (f : β → α → Except String β) :
    ∀ (l : List α) (b : β),
      (∀ a ∈ l, ∀ b2, isOkE (f b2 a) = true) →
      isOkE (l.foldlM f b) = true
  | [], _, _ => rfl
  | a :: t, b, h => by
    have h1 := h a (List.mem_cons_self a t) b
    rcases (isOkE_iff (f b a)).mp h1 with ⟨b2, hf⟩
    have hstep : (a :: t).foldlM f b = t.foldlM f b2 := by
      show Except.bind (f b a) (fun s => t.foldlM f s) = t.foldlM f b2
      rw [hf]
      rfl
    rw [hstep]
    exact foldlM_ok f t b2 (fun a2 ha2 b3 => h a2 (List.mem_cons_of_mem a ha2) b3)

lemma gateAddLow_ok (K : List ℚ → List ℚ → ℚ → ℚ) (df : List Row)
    (q r : ℤ) (k : String) (st : Gate)
    (h : subRows df q r k ("min") = [] ∨
      (4 ≤ (subRows df q r k ("min")).length ∧
        ((subRows df q r k ("min")).map Row.x).Nodup)) :
    isOkE (gateAddLow K df q r k st) = true := by
  unfold gateAddLow
  by_cases hlen : (subRows df q r k ("min")).length > 0
  · rw [if_pos hlen]
    have h4 : 4 ≤ (subRows df q r k ("min")).length ∧
        ((subRows df q r k ("min")).map Row.x).Nodup := by
      rcases h with h0 | h4

      · rw [h0] at hlen
        exact absurd hlen (by simp)
      · exact h4
    have hok : isOkE (interpolationInit ((subRows df q r k ("min")).map Row.x)
        ((subRows df q r k ("min")).map Row.y) ("cubic")
        (listMax ((subRows df q r k ("min")).map Row.y),
         listMin ((subRows df q r k ("min")).map Row.y))
        (K ((subRows df q r k ("min")).map Row.x)
           ((subRows df q r k ("min")).map Row.y))) = true := by
      rw [interpolationInit_cubic_ok_iff]
      refine ⟨by simp, by simpa using h4.1, h4.2⟩
    rcases (isOkE_iff _).mp hok with ⟨f, hf⟩
    rw [hf]
    rfl
  · rw [if_neg hlen]
    rfl

lemma gateAddHigh_ok (K : List ℚ → List ℚ → ℚ → ℚ) (df : List Row)
    (q r : ℤ) (k : String) (st : Gate)
    (h : subRows df q r k ("max") = [] ∨
      (4 ≤ (subRows df q r k ("max")).length ∧
        ((subRows df q r k ("max")).map Row.x).Nodup)) :
    isOkE (gateAddHigh K df q r k st) = true := by
  unfold gateAddHigh
  by_cases hlen : (subRows df q r k ("max")).length > 0
  · rw [if_pos hlen]
    have h4 : 4 ≤ (subRows df q r k ("max")).length ∧
        ((subRows df q r k ("max")).map Row.x).Nodup := by
      rcases h with h0 | h4

      · rw [h0] at hlen
        exact absurd hlen (by simp)
      · exact h4
    have hok : isOkE (interpolationInit ((subRows df q r k ("max")).map Row.x)
        ((subRows df q r k ("max")).map Row.y) ("cubic")
        (listMax ((subRows df q r k ("max")).map Row.y),
         listMin ((subRows df q r k ("max")).map Row.y))
        (K ((subRows df q r k ("max")).map Row.x)
           ((subRows df q r k ("max")).map Row.y))) = true := by
      rw [interpolationInit_cubic_ok_iff]
      refine ⟨by simp, by simpa using h4.1, h4.2⟩
    rcases (isOkE_iff _).mp hok with ⟨f, hf⟩
    rw [hf]
    rfl
  · rw [if_neg hlen]
    rfl

lemma gateStep_ok (K : List ℚ → List ℚ → ℚ → ℚ) (df : List Row)
    (st : Gate) (t : ℤ × ℤ × String)
    (hlow : subRows df t.1 t.2.1 t.2.2 ("min") = [] ∨
      (4 ≤ (subRows df t.1 t.2.1 t.2.2 ("min")).length ∧
        ((subRows df t.1 t.2.1 t.2.2 ("min")).map Row.x).Nodup))
    (hhigh : subRows df t.1 t.2.1 t.2.2 ("max") = [] ∨
      (4 ≤ (subRows df t.1 t.2.1 t.2.2 ("max")).length ∧
        ((subRows df t.1 t.2.1 t.2.2 ("max")).map Row.x).Nodup)) :
    isOkE (gateStep K df st t) = true := by
  unfold gateStep
  rcases (isOkE_iff _).mp (gateAddLow_ok K df t.1 t.2.1 t.2.2 st hlow) with ⟨st1, h1⟩
  rw [h1]
  exact gateAddHigh_ok K df t.1 t.2.1 t.2.2 st1 hhigh

lemma lookup_append_of_some {α β : Type} [BEq α] :
    ∀ (l1 l2 : List (α × β)) (k : α) (v : β),
      List.lookup k l1 = some v → List.lookup k (l1 ++ l2) = some v
  | [], _, _, _, h => by simp [List.lookup] at h
  | (a, g) :: t, l2, k, v, h => by
    rcases hk : k == a with _ | _
    · simp only [List.cons_append, List.lookup, hk] at h ⊢
      exact lookup_append_of_some t l2 k v h
    · simp only [List.cons_append, List.lookup, hk] at h ⊢
      exact h

lemma lookup_append_of_none {α β : Type} [BEq α] :
    ∀ (l1 l2 : List (α × β)) (k : α),
      List.lookup k l1 = none → List.lookup k (l1 ++ l2) = List.lookup k l2
  | [], _, _, _ => rfl
  | (a, g) :: t, l2, k, h => by
    rcases hk : k == a with _ | _
    · simp only [List.cons_append, List.lookup, hk] at h ⊢
      exact lookup_append_of_none t l2 k h
    · simp only [List.lookup, hk] at h
      exact absurd h (by simp)

/-- With either per-kind subset empty, the `GateSector.__init__` loop body
appends the default `ActGate` for that kind and cannot fail. -/
lemma sectorStep_asym (K : List ℚ → List ℚ → ℚ → ℚ) (df : List Row)
    (default : Bool) (st : List (String × ActGate)) (k : String)
    (h : sectorRows df k ("min") = [] ∨ sectorRows df k ("max") = []) :
    sectorStep K df default st k =
      Except.ok (st ++ [(k, ⟨none, none, default⟩)]) := by
  unfold sectorStep
  have hneg : ¬ ((sectorRows df k ("min")).length > 0 ∧
      (sectorRows df k ("max")).length > 0) := by
    intro hc
    rcases h with h0 | h0 <;> rw [h0] at hc <;> simp at hc
  rw [if_neg hneg]

/-- Every successful `GateSector.__init__` loop step appends exactly one
entry keyed by the processed kind. -/
lemma sectorStep_shape (K : List ℚ → List ℚ → ℚ → ℚ) (df : List Row)
    (default : Bool) (st st2 : List (String × ActGate)) (k : String)
    (h : sectorStep K df default st k = Except.ok st2) :
    ∃ g, st2 = st ++ [(k, g)] := by
  unfold sectorStep at h
  by_cases hc : (sectorRows df k ("min")).length > 0 ∧
      (sectorRows df k ("max")).length > 0
  · rw [if_pos hc] at h
    split at h
    · exact absurd h (by simp)
    · split at h
      · exact absurd h (by simp)
      · simp only [Except.ok.injEq] at h
        exact ⟨_, h.symm⟩
  · rw [if_neg hc] at h
    simp only [Except.ok.injEq] at h
    exact ⟨⟨none, none, default⟩, h.symm⟩

/-- The `GateSector.__init__` fold only appends entries, so an entry
already found by `lookup` keeps being found in the final dict. -/
lemma sector_fold_lookup_preserved (K : List ℚ → List ℚ → ℚ → ℚ)
    (df : List Row) (default : Bool) :
    ∀ (l : List String) (st m : List (String × ActGate)) (k : String)
      (v : ActGate),
      List.lookup k st = some v →
      l.foldlM (sectorStep K df default) st = Except.ok m →
      List.lookup k m = some v
  | [], st, m, k, v, hst, hfold => by
    have hm : (Except.ok st : Except String (List (String × ActGate))) =
        Except.ok m := hfold
    have hm2 : st = m := by simpa using hm
    rw [← hm2]
    exact hst
  | a :: t, st, m, k, v, hst, hfold => by
    rcases hs : sectorStep K df default st a with e | st2
    · have : (a :: t).foldlM (sectorStep K df default) st = Except.error e := by
        show Except.bind (sectorStep K df default st a)
          (fun s => t.foldlM (sectorStep K df default) s) = Except.error e
        rw [hs]
        rfl
      rw [this] at hfold
      exact absurd hfold (by simp)
    · have hf2 : t.foldlM (sectorStep K df default) st2 = Except.ok m := by
        have : (a :: t).foldlM (sectorStep K df default) st =
            t.foldlM (sectorStep K df default) st2 := by
          show Except.bind (sectorStep K df default st a)
            (fun s => t.foldlM (sectorStep K df default) s) = _
          rw [hs]
          rfl
        rw [← this]
        exact hfold
      obtain ⟨g, rfl⟩ := sectorStep_shape K df default st st2 a hs
      exact sector_fold_lookup_preserved K df default t (st ++ [(a, g)]) m k v
        (lookup_append_of_some st [(a, g)] k v hst) hf2

/-- Through the `GateSector.__init__` fold, every processed kind whose
`min` or `max` subset is empty ends up mapped to the default `ActGate`. -/
lemma sector_fold_lookup (K : List ℚ → List ℚ → ℚ → ℚ) (df : List Row)
    (default : Bool) :
    ∀ (l : List String) (st m : List (String × ActGate)) (k : String),
      k ∈ l →
      List.lookup k st = none →
      (sectorRows df k ("min") = [] ∨ sectorRows df k ("max") = []) →
      l.foldlM (sectorStep K df default) st = Except.ok m →
      List.lookup k m = some ⟨none, none, default⟩
  | [], _, _, _, hk, _, _, _ => absurd hk (by simp)
  | a :: t, st, m, k, hk, hst, hasym, hfold => by
    rcases hs : sectorStep K df default st a with e | st2
    · have : (a :: t).foldlM (sectorStep K df default) st = Except.error e := by
        show Except.bind (sectorStep K df default st a)
          (fun s => t.foldlM (sectorStep K df default) s) = Except.error e
        rw [hs]
        rfl
      rw [this] at hfold
      exact absurd hfold (by simp)
    · have hf2 : t.foldlM (sectorStep K df default) st2 = Except.ok m := by
        have : (a :: t).foldlM (sectorStep K df default) st =
            t.foldlM (sectorStep K df default) st2 := by
          show Except.bind (sectorStep K df default st a)
            (fun s => t.foldlM (sectorStep K df default) s) = _
          rw [hs]
          rfl
        rw [← this]
        exact hfold
      by_cases hka : k = a
      · subst hka
        rw [sectorStep_asym K df default st k hasym] at hs
        have hst2 : st2 = st ++ [(k, ⟨none, none, default⟩)] := by
          simpa using hs.symm
        subst hst2
        have hlk : List.lookup k (st ++ [(k, (⟨none, none, default⟩ : ActGate))]) =
            some ⟨none, none, default⟩ := by
          rw [lookup_append_of_none st [(k, (⟨none, none, default⟩ : ActGate))] k hst]
          simp [List.lookup]
        exact sector_fold_lookup_preserved K df default t _ m k _ hlk hf2
      · obtain ⟨g, rfl⟩ := sectorStep_shape K df default st st2 a hs
        have hmem : k ∈ t := by
          rcases List.mem_cons.mp hk with h0 | h0
          · exact absurd h0 hka
          · exact h0
        have hnone : List.lookup k (st ++ [(a, g)]) = none := by
          rw [lookup_append_of_none st [(a, g)] k hst]
          have hne : (k == a) = false := beq_eq_false_iff_ne.mpr hka
          simp [List.lookup, hne]
        exact sector_fold_lookup K df default t (st ++ [(a, g)]) m k hmem
          hnone hasym hf2

lemma chain_lt_of_head :
    ∀ (l : List ℚ) (a : ℚ), List.Chain' (· < ·) (a :: l) →
      ∀ k, k < l.length → a < l.getD k 0
  | [], _, _, k, hk => absurd hk (by simp)
  | b :: t, a, hch, 0, _ => by
    have := (List.chain'_cons.mp hch).1
    simpa using this
  | b :: t, a, hch, k + 1, hk => by
    have hab : a < b := (List.chain'_cons.mp hch).1
    have hbt : List.Chain' (· < ·) (b :: t) := (List.chain'_cons.mp hch).2
    have hk2 : k < t.length := by simpa using hk
    have := chain_lt_of_head t b hbt k hk2
    rw [List.getD_cons_succ]
    exact lt_trans hab this

lemma chain_getD_lt :
    ∀ (l : List ℚ), List.Chain' (· < ·) l →
      ∀ i j, i < j → j < l.length → l.getD i 0 < l.getD j 0
  | [], _, _, j, _, hj => absurd hj (by simp)
  | a :: t, hch, 0, j, hij, hj => by
    obtain ⟨k, rfl⟩ : ∃ k, j = k + 1 := ⟨j - 1, by omega⟩
    rw [List.getD_cons_zero, List.getD_cons_succ]
    exact chain_lt_of_head t a hch k (by simpa using hj)
  | a :: t, hch, i + 1, j, hij, hj => by
    obtain ⟨k, rfl⟩ : ∃ k, j = k + 1 := ⟨j - 1, by omega⟩
    rw [List.getD_cons_succ, List.getD_cons_succ]
    exact chain_getD_lt t hch.tail i k (by omega) (by simpa using hj)

lemma chain_head_le_getD (l : List ℚ) (hl : List.Chain' (· < ·) l)
    (k : Nat) (hk : k < l.length) : l.getD 0 0 ≤ l.getD k 0 := by
  cases k with
  | zero => exact le_refl _
  | succ k2 => exact le_of_lt (chain_getD_lt l hl 0 (k2 + 1) (by omega) hk)

lemma cellIdx_node :
    ∀ (xs : List ℚ), List.Chain' (· < ·) xs →
      ∀ i, i + 1 < xs.length → cellIdx xs (xs.getD i 0) = i
  | [], _, _, h => absurd h (by simp)
  | [_], _, _, h => absurd h (by simp)
  | [a, b], _, i, h => by
    have : i = 0 := by simp at h; omega
    subst this
    rfl
  | a :: b :: c :: rest, hch, 0, _ => by
    have hab : a < b := (List.chain'_cons.mp hch).1
    show cellIdx (a :: b :: c :: rest) a = 0
    unfold cellIdx
    rw [if_pos hab]
  | a :: b :: c :: rest, hch, i + 1, h => by
    have hch2 : List.Chain' (· < ·) (b :: c :: rest) := (List.chain'_cons.mp hch).2
    have hi2 : i + 1 < (b :: c :: rest).length := by simp at h ⊢; omega
    have hble : b ≤ (b :: c :: rest).getD i 0 :=
      chain_head_le_getD (b :: c :: rest) hch2 i (by omega)
    have hrec := cellIdx_node (b :: c :: rest) hch2 i hi2
    rw [List.getD_cons_succ]
    show cellIdx (a :: b :: c :: rest) ((b :: c :: rest).getD i 0) = i + 1
    unfold cellIdx
    rw [if_neg (not_lt.mpr hble), hrec]

lemma getD_map_eq {α β : Type} (f : α → β) :
    ∀ (l : List α) (i : Nat), i < l.length →
      ∀ (d : β) (d2 : α), (l.map f).getD i d = f (l.getD i d2)
  | [], i, h, _, _ => absurd h (by simp)
  | _ :: _, 0, _, _, _ => rfl
  | _ :: t, i + 1, h, d, d2 => by
    rw [List.map_cons, List.getD_cons_succ, List.getD_cons_succ]
    exact getD_map_eq f t i (by simpa using h) d d2

lemma bilinear_node (xin yin : List ℚ) (M : List (List ℚ)) (i j : Nat)
    (hx : List.Chain' (· < ·) xin) (hy : List.Chain' (· < ·) yin)
    (hi : i + 1 < xin.length) (hj : j + 1 < yin.length) :
    bilinear xin yin M (xin.getD i 0) (yin.getD j 0) = (M.getD i []).getD j 0 := by
  unfold bilinear
  rw [cellIdx_node xin hx i hi, cellIdx_node yin hy j hj]
  simp [sub_self, zero_div]

/-! ### Claim theorems -/

/-- C7: for every BoundaryPair (`ActGate`) with both interpolants present,
`inside(x, y)` is true iff `lower(x) < y` and `y < upper(x)`, with both
inequalities strict: a point with `y` exactly on either boundary is
classified outside (false). -/
theorem C7_strict_boundary (fmax fmin : Interpolation) (d : Bool) (x y : ℚ) :
    (ActGate.callScalar ⟨some fmax, some fmin, d⟩ x y = some true ↔
      (fmin.eval x < y ∧ y < fmax.eval x)) ∧
    ((y = fmin.eval x ∨ y = fmax.eval x) →
      ActGate.callScalar ⟨some fmax, some fmin, d⟩ x y = some false) := by
  constructor
  · show some (decide (y < fmax.eval x) && decide (y > fmin.eval x)) = some true ↔ _
    simp [Bool.and_eq_true, decide_eq_true_iff, and_comm]
  · intro hb
    show some (decide (y < fmax.eval x) && decide (y > fmin.eval x)) = some false
    rcases hb with hb | hb
    · have : ¬ (y > fmin.eval x) := by rw [hb]; exact lt_irrefl _
      simp [this]
    · have : ¬ (y < fmax.eval x) := by rw [hb]; exact lt_irrefl _
      simp [this]

/-- Witness for C7 at a concrete boundary point: with both sides the
interpolant `fWide` and `y` equal to the lower boundary value at `x = 0`,
the classification is `some false`. -/
theorem C7_strict_boundary_witness :
    ActGate.callScalar ⟨some fWide, some fWide, true⟩ 0 (fWide.eval 0) = some false :=
  (C7_strict_boundary fWide fWide true 0 (fWide.eval 0)).2 (Or.inl rfl)

/-- C8: an Interpolant built as Gate configures it — cubic with
`fill_value = (max(y), min(y))` — returns exactly `max(y)` for queries
strictly below the fitted domain minimum and exactly `min(y)` for queries
strictly above the domain maximum, for an arbitrary in-domain kernel. -/
theorem C8_extrapolation_fallback (xs ys : List ℚ) (fK : ℚ → ℚ)
    (f : Interpolation)
    (hf : interpolationInit xs ys ("cubic") (listMax ys, listMin ys) fK =
          Except.ok f) (q : ℚ) :
    (q < listMin xs → f.eval q = listMax ys) ∧
    (listMax xs < q → f.eval q = listMin ys) := by
  unfold interpolationInit at hf
  rcases hc : interp1dCheck ("cubic") xs ys with e | u
  · rw [hc] at hf
    exact absurd hf (by simp)
  · rw [hc] at hf
    have hck := interp1dCheck_cubic_ok hc
    have hfe : f = ⟨xs, ys, listMax ys, listMin ys, fK⟩ := by
      have := hf
      simp only [Except.ok.injEq] at this
      exact this.symm
    subst hfe
    constructor
    · intro hq
      show (if q < listMin xs then listMax ys else _) = listMax ys
      rw [if_pos hq]
    · intro hq
      have hne : xs ≠ [] := by
        intro h0
        rw [h0] at hck
        simp at hck
      have h1 : ¬ q < listMin xs :=
        not_lt.mpr (le_trans (le_trans (listMin_le_listMax hne) (le_of_lt hq)) (le_refl q))
      show (if q < listMin xs then _ else if q > listMax xs then listMin ys else _) = listMin ys
      rw [if_neg h1, if_pos hq]

/-- Witness for C8: the Gate-configured interpolant over
`x = [1, 2, 3, 4]`, `y = [7, 8, 9, 10]` evaluates to `max(y)` at the
below-domain query `0` and to `min(y)` at the above-domain query `11`. -/
theorem C8_extrapolation_fallback_witness :
    Interpolation.eval fWide 0 = listMax [7, 8, 9, 10] ∧
    Interpolation.eval fWide 11 = listMin [7, 8, 9, 10] :=
  ⟨(C8_extrapolation_fallback [1, 2, 3, 4] [7, 8, 9, 10] (K0 [] []) fWide rfl 0).1
      (by norm_num [listMin, qmin]),
   (C8_extrapolation_fallback [1, 2, 3, 4] [7, 8, 9, 10] (K0 [] []) fWide rfl 11).2
      (by norm_num [listMax, qmax])⟩

/-- C1 counterexample: the Gate built from an empty sample table with
`default=True` has no fitted BoundaryPair for the key `(1, 1, "p")`, yet
`classify(0, 0, 1, 1, "p")` returns `False`, not the configured default
`True` — because the unknown-key path substitutes the sentinel bounds
`(1e99, 0)` and `0 > 0` fails. -/
theorem C1_default_cex :
    gateInit K0 [] true = Except.ok ⟨[], [], true⟩ ∧
    (⟨[], [], true⟩ : Gate).Default_return = true ∧
    Gate.call ⟨[], [], true⟩ 0 0 1 1 ("p") = false := by
  refine ⟨rfl, rfl, ?_⟩
  norm_num [Gate.call, Gate.defaultMax, Gate.defaultMin, bigVal, List.lookup]

/-- C1 amended: with an unknown `(quad, ring, kind)` key, `Gate.classify`
returns `True` exactly when the default is `True` AND `0 < y < 1e99`
(so it equals the configured default only for `y` strictly between the
sentinels, and is always `False` when the default is `False`); an
`ActGate` with an absent side returns the default broadcast over array
inputs but returns `None` (no value) for scalar inputs. -/
theorem C1_default_amended (g : Gate) (x y : ℚ) (quad r : ℤ) (kind : String)
    (hh : List.lookup (quad, r, kind) g.gates_high = none)
    (hl : List.lookup (quad, r, kind) g.gates_low = none)
    (a : ActGate) (ha : a.max = none ∨ a.min = none) (xv yv : List ℚ) :
    (g.call x y quad r kind = true ↔
      (g.Default_return = true ∧ 0 < y ∧ y < bigVal)) ∧
    a.callArray xv yv = some (xv.map fun _ => a.default) ∧
    a.callScalar x y = none := by
  have hbig : (0 : ℚ) < bigVal := by norm_num [bigVal]
  refine ⟨?_, ?_, ?_⟩
  · show (decide (y < _) && decide (y > _)) = true ↔ _
    rw [hh, hl]
    cases hd : g.Default_return with
    | true =>
      simp [Gate.defaultMax, Gate.defaultMin, hd, and_comm]
    | false =>
      simp only [Gate.defaultMax, Gate.defaultMin, hd, if_false,
        Bool.and_eq_true, decide_eq_true_iff]
      constructor
      · intro hcon
        exact absurd (lt_trans (lt_trans hbig hcon.2) hcon.1) (lt_irrefl 0)
      · intro hcon
        exact absurd hcon.1 (by simp)
  · obtain ⟨amax, amin, ad⟩ := a
    rcases ha with h | h
    · simp only at h
      subst h
      rfl
    · simp only at h
      subst h
      cases amax <;> rfl
  · obtain ⟨amax, amin, ad⟩ := a
    rcases ha with h | h
    · simp only at h
      subst h
      rfl
    · simp only at h
      subst h
      cases amax <;> rfl

/-- Witness for C1 amended, at the empty Gate with default `True`, the
query point `(0, 1)` (where the sentinel conjunction holds), and the
sides-absent `ActGate`. -/
theorem C1_default_amended_witness :
    (Gate.call ⟨[], [], true⟩ 0 1 1 1 ("p") = true ↔
      ((⟨[], [], true⟩ : Gate).Default_return = true ∧ (0 : ℚ) < 1 ∧ (1 : ℚ) < bigVal)) ∧
    ActGate.callArray ⟨none, none, true⟩ [0] [0] =
      some ([(0 : ℚ)].map fun _ => (⟨none, none, true⟩ : ActGate).default) ∧
    ActGate.callScalar ⟨none, none, true⟩ 0 1 = none :=
  C1_default_amended ⟨[], [], true⟩ 0 1 1 1 ("p") rfl rfl
    ⟨none, none, true⟩ (Or.inl rfl) [0] [0]

/-- C2 counterexample: `gLowOnly` (built from a table with only `min` rows
for `(1, 1, "p")` and `default=True`) has only a lower curve for that key,
yet `classify(0, 5, 1, 1, "p")` is `False`, not the default `True`; with a
lower curve fitted over smaller `y` samples (`gLowOnly2`) the same query is
`True` — so the single present curve IS evaluated instead of falling back
to the default. -/
theorem C2_one_sided_cex :
    isOkE (gateInit K0 dfLowOnly true) = true ∧
    gLowOnly.Default_return = true ∧
    gLowOnly.call 0 5 1 1 ("p") = false ∧
    gLowOnly2.call 0 5 1 1 ("p") = true := by
  refine ⟨rfl, rfl, by decide, by decide⟩

/-- C2 amended: for a Gate key with only ONE curve fitted, the present
curve IS evaluated rather than falling back to the default — with only a
lower curve, classification is true iff `lower(x) < y < defaultMax(x)`,
and with only an upper curve iff `defaultMin(x) < y < upper(x)`;
`GateSector`, by contrast, stores the default `ActGate` for every kind it
processes whose `min` or `max` subset is empty, so only the sector variant
falls back to the default under asymmetric presence. -/
theorem C2_one_sided_amended
    (g1 : Gate) (q1 r1 : ℤ) (k1 : String) (f1 : Interpolation) (x1 y1 : ℚ)
    (h1h : List.lookup (q1, r1, k1) g1.gates_high = none)
    (h1l : List.lookup (q1, r1, k1) g1.gates_low = some f1)
    (g2 : Gate) (q2 r2 : ℤ) (k2 : String) (f2 : Interpolation) (x2 y2 : ℚ)
    (h2h : List.lookup (q2, r2, k2) g2.gates_high = some f2)
    (h2l : List.lookup (q2, r2, k2) g2.gates_low = none)
    (K : List ℚ → List ℚ → ℚ → ℚ) (df : List Row) (default : Bool)
    (m : List (String × ActGate)) (ks : String)
    (hks : ks ∈ (df.map Row.kind).dedup)
    (hasym : sectorRows df ks ("min") = [] ∨ sectorRows df ks ("max") = [])
    (hinit : gateSectorInit K df default = Except.ok m) :
    (g1.call x1 y1 q1 r1 k1 = true ↔
      (f1.eval x1 < y1 ∧ y1 < g1.defaultMax x1)) ∧
    (g2.call x2 y2 q2 r2 k2 = true ↔
      (g2.defaultMin x2 < y2 ∧ y2 < f2.eval x2)) ∧
    List.lookup ks m = some ⟨none, none, default⟩ := by
  refine ⟨?_, ?_, ?_⟩
  · show (decide (y1 < _) && decide (y1 > _)) = true ↔ _
    rw [h1h, h1l]
    simp [Bool.and_eq_true, decide_eq_true_iff, and_comm]
  · show (decide (y2 < _) && decide (y2 > _)) = true ↔ _
    rw [h2h, h2l]
    simp [Bool.and_eq_true, decide_eq_true_iff, and_comm]
  · exact sector_fold_lookup K df default ((df.map Row.kind).dedup) [] m ks
      hks rfl hasym hinit

/-- Witness for C2 amended at the concrete one-sided Gates `gLowOnly` and
`gHighOnly` (only a lower / only an upper curve for `(1, 1, "p")`), and the
table `dfOneMin` whose kind `"p"` has no `max` rows. -/
theorem C2_one_sided_amended_witness :
    (gLowOnly.call 0 5 1 1 ("p") = true ↔
      (fLowOnly.eval 0 < 5 ∧ (5 : ℚ) < gLowOnly.defaultMax 0)) ∧
    (gHighOnly.call 0 5 1 1 ("p") = true ↔
      (gHighOnly.defaultMin 0 < 5 ∧ (5 : ℚ) < fLowOnly.eval 0)) ∧
    List.lookup ("p") [(("p" : String), (⟨none, none, true⟩ : ActGate))] =
      some ⟨none, none, true⟩ :=
  C2_one_sided_amended gLowOnly 1 1 ("p") fLowOnly 0 5 rfl rfl
    gHighOnly 1 1 ("p") fLowOnly 0 5 rfl rfl
    K0 dfOneMin true [(("p" : String), (⟨none, none, true⟩ : ActGate))] ("p")
    (by decide) (Or.inr rfl) rfl

/-- C3: `fill_negative` documents "fill from the channel with the largest
positive count in the neighbourhood", but `np.argmax` returns an index
relative to the window slice which the code then uses as an ABSOLUTE column
index.  At the matrix `[[10, 0, -3, 0]]` with window half-width 1 the
window of the negative cell `(0, 2)` is columns `[1, 3)` with maximum `0`
(not positive), so the cell must stay `-3`; the code instead probes column
0 (relative argmax 0, value 10) and rewrites the cell to
`min(0, 10 + (-3)) = 0`. -/
theorem C3_donor_window_bug :
    fill_negative [[10, 0, -3, 0]] 1 = [[10, 0, 0, 0]] ∧
    fill_negative_spec [[10, 0, -3, 0]] 1 = [[10, 0, -3, 0]] := by
  constructor
  · norm_num [fill_negative, fillNegRow, argmaxIdx, qmin, List.range_succ]
  · norm_num [fill_negative_spec, fillNegRowSpec, listMax, qmax, qmin,
      List.range_succ]

/-- C4 counterexample: the two calibration points `(Ex, Eg) = (0, 0)` and
`(1, 0.4)` map to the SAME column index `0` on the axis `[0, 1]` — a
degenerate line specification — yet `cut_diagonal` raises nothing and
returns a matrix: no validation precedes the division. -/
theorem C4_validation_cex :
    i_from_E (4 / 10) [0, 1] = i_from_E 0 [0, 1] ∧
    isOkE (cut_diagonal [[1, 1], [1, 1]] [0, 1] [0, 1] (0, 0) (1, 4 / 10)) = true := by
  constructor
  · norm_num [i_from_E, argminIdx, qabs]
  · rfl

/-- C4 amended: `cut_diagonal` performs no validation of the two column
indices — for every input with nonempty axis arrays, including every
degenerate one where both points map to the same column index, it executes
the division unconditionally (numpy produces a non-finite slope rather
than an exception) and returns a matrix; no `ConfigurationError` exists. -/
theorem C4_validation_amended (matrix : List (List ℚ))
    (Ex_array Eg_array : List ℚ) (E1 E2 : ℚ × ℚ)
    (_hEx : Ex_array ≠ []) (_hEg : Eg_array ≠ [])
    (_hdeg : i_from_E E1.2 Eg_array = i_from_E E2.2 Eg_array) :
    isOkE (cut_diagonal matrix Ex_array Eg_array E1 E2) = true := rfl

/-- Witness for C4 amended at a concrete degenerate input: both points'
`Eg` components `0` and `1/3` are nearest to axis value `0` of `[0, 1]`. -/
theorem C4_validation_amended_witness :
    isOkE (cut_diagonal [[5, 5]] [0] [0, 1] (0, 0) (0, 1 / 3)) = true :=
  C4_validation_amended [[5, 5]] [0] [0, 1] (0, 0) (0, 1 / 3)
    (by simp) (by simp) (by norm_num [i_from_E, argminIdx, qabs])

/-- C5 counterexample: a table whose only subset has exactly TWO rows
(equal-length `x` and `y` samples) makes Gate construction fail, because
`kind='cubic'` interpolation requires at least four points — contradicting
both "construction succeeds when each subset has at least one row" and
"Interpolant construction fails only when fewer than two samples are given
or when the lengths differ". -/
theorem C5_min_samples_cex :
    isOkE (gateInit K0 dfTwoRows true) = false ∧
    isOkE (interpolationInit [0, 1] [0, 1] ("cubic") (1, 0) (fun _ => 0)) = false := by
  exact ⟨rfl, rfl⟩

/-- C5 amended: Gate construction succeeds when every nonempty
`(quad, ring, kind, lim)` subset has at least FOUR rows with
pairwise-distinct `x` samples (the minimum for the cubic interpolation
Gate always requests: scipy sorts `x` and its cubic spline needs at least
four distinct points), and a cubic Interpolant construction succeeds
exactly when the `x` and `y` lengths agree, at least four samples are
given, and `x` has no duplicates. -/
theorem C5_min_samples_amended (K : List ℚ → List ℚ → ℚ → ℚ) (df : List Row)
    (default : Bool)
    (h : ∀ t ∈ keyTriples df,
      (subRows df t.1 t.2.1 t.2.2 ("min") = [] ∨
        (4 ≤ (subRows df t.1 t.2.1 t.2.2 ("min")).length ∧
          ((subRows df t.1 t.2.1 t.2.2 ("min")).map Row.x).Nodup)) ∧
      (subRows df t.1 t.2.1 t.2.2 ("max") = [] ∨
        (4 ≤ (subRows df t.1 t.2.1 t.2.2 ("max")).length ∧
          ((subRows df t.1 t.2.1 t.2.2 ("max")).map Row.x).Nodup)))
    (x y : List ℚ) (fill : ℚ × ℚ) (fK : ℚ → ℚ) :
    isOkE (gateInit K df default) = true ∧
    (isOkE (interpolationInit x y ("cubic") fill fK) = true ↔
      (x.length = y.length ∧ 4 ≤ x.length ∧ x.Nodup)) := by
  constructor
  · exact foldlM_ok (gateStep K df) (keyTriples df) ⟨[], [], default⟩
      (fun t ht st => gateStep_ok K df st t (h t ht).1 (h t ht).2)
  · exact interpolationInit_cubic_ok_iff x y fill fK

/-- Witness for C5 amended: the four-row table `dfLowOnly` (distinct `x`
samples `1..4`) satisfies the subset hypothesis and construction
succeeds. -/
theorem C5_min_samples_amended_witness :
    isOkE (gateInit K0 dfLowOnly true) = true ∧
    (isOkE (interpolationInit [0, 1, 2, 3] [5, 6, 7, 8] ("cubic") (8, 5)
        (fun _ => 0)) = true ↔
      (([0, 1, 2, 3] : List ℚ).length = ([5, 6, 7, 8] : List ℚ).length ∧
        4 ≤ ([0, 1, 2, 3] : List ℚ).length ∧
        ([0, 1, 2, 3] : List ℚ).Nodup)) :=
  C5_min_samples_amended K0 dfLowOnly true (by decide)
    [0, 1, 2, 3] [5, 6, 7, 8] (8, 5) (fun _ => 0)

/-- C6: at the matrix `[[0, 1, -5, 0]]` with window half-width 1, the
negative cell `(0, 2)` has the positive donor `1` inside its window
(columns `[1, 3)`), so its magnitude must shrink to
`min(0, 1 + (-5)) = -4`; the code instead probes the window-relative argmax
`0` as an absolute column (value `0`, not positive) and leaves the cell at
`-5` — the repair the claim promises does not happen. -/
theorem C6_missed_repair_bug :
    fill_negative [[0, 1, -5, 0]] 1 = [[0, 1, -5, 0]] ∧
    fill_negative_spec [[0, 1, -5, 0]] 1 = [[0, 1, -4, 0]] := by
  constructor
  · norm_num [fill_negative, fillNegRow, argmaxIdx, qmin, List.range_succ]
  · norm_num [fill_negative_spec, fillNegRowSpec, listMax, qmax, qmin,
      List.range_succ]

/-- C9: resampling a matrix onto its own strictly increasing axes
reproduces the original value at every cell except the mask-boundary
cells — exactly, in the rational model of the degree-1 bivariate spline
(floating-point tolerance subsumed by exact arithmetic). -/
theorem C9_resample_identity (M : List (List ℚ)) (xs ys : List ℚ)
    (hshape : M.length = xs.length ∧ ∀ r ∈ M, r.length = ys.length)
    (hx : List.Chain' (· < ·) xs) (hy : List.Chain' (· < ·) ys)
    (i j : Nat) (hi0 : 0 < i) (hi1 : i + 1 < xs.length)
    (hj0 : 0 < j) (hj1 : j + 1 < ys.length) :
    ((okD [] (interpolate_matrix_2D M xs ys xs ys)).getD i []).getD j 0 =
      (M.getD i []).getD j 0 := by
  have hok : interpolate_matrix_2D M xs ys xs ys =
      Except.ok (resampleGrid M xs ys xs ys) := by
    unfold interpolate_matrix_2D
    rw [if_pos hshape]
  rw [hok]
  show ((resampleGrid M xs ys xs ys).getD i []).getD j 0 = _
  unfold resampleGrid
  rw [getD_map_eq _ xs i (by omega) [] 0]
  rw [getD_map_eq _ ys j (by omega) 0 0]
  unfold resampleEntry
  have c1 : xs.getD 0 0 < xs.getD i 0 := chain_getD_lt xs hx 0 i hi0 (by omega)
  have c2 : xs.getD i 0 < lastD xs := by
    unfold lastD
    exact chain_getD_lt xs hx i (xs.length - 1) (by omega) (by omega)
  have c3 : ys.getD 0 0 < ys.getD j 0 := chain_getD_lt ys hy 0 j hj0 (by omega)
  have c4 : ys.getD j 0 < lastD ys := by
    unfold lastD
    exact chain_getD_lt ys hy j (ys.length - 1) (by omega) (by omega)
  rw [if_pos ⟨c1, c2, c3, c4⟩]
  exact bilinear_node xs ys M i j hx hy hi1 hj1

/-- Witness for C9: the 3x3 matrix `[[1,2,3],[4,5,6],[7,8,9]]` on axes
`[0,1,2]`, resampled onto the same axes, keeps its centre value `5`. -/
theorem C9_resample_identity_witness :
    ((okD [] (interpolate_matrix_2D [[1, 2, 3], [4, 5, 6], [7, 8, 9]]
        [0, 1, 2] [0, 1, 2] [0, 1, 2] [0, 1, 2])).getD 1 []).getD 1 0 =
      (([[1, 2, 3], [4, 5, 6], [7, 8, 9]] : List (List ℚ)).getD 1 []).getD 1 0 :=
  C9_resample_identity [[1, 2, 3], [4, 5, 6], [7, 8, 9]] [0, 1, 2] [0, 1, 2]
    (by decide)
    (by norm_num [List.chain'_cons, List.chain'_singleton])
    (by norm_num [List.chain'_cons, List.chain'_singleton])
    1 1 (by decide) (by decide) (by decide) (by decide)

/-- C10: the out-of-range mask of `interpolate_matrix_2D` is inclusive at
the source-axis endpoints: an output cell whose target-row coordinate is
`≤` the first or `≥` the last source-row axis value (or likewise for the
column axis) is exactly zero, so the retained region is the open interval
strictly between the source endpoints. -/
theorem C10_mask_inclusive (M : List (List ℚ)) (xin yin xout yout : List ℚ)
    (hshape : M.length = xin.length ∧ ∀ r ∈ M, r.length = yin.length)
    (i j : Nat) (hi : i < xout.length) (hj : j < yout.length)
    (h : xout.getD i 0 ≤ xin.getD 0 0 ∨ lastD xin ≤ xout.getD i 0 ∨
         yout.getD j 0 ≤ yin.getD 0 0 ∨ lastD yin ≤ yout.getD j 0) :
    ((okD [] (interpolate_matrix_2D M xin yin xout yout)).getD i []).getD j 0 = 0 := by
  have hok : interpolate_matrix_2D M xin yin xout yout =
      Except.ok (resampleGrid M xin yin xout yout) := by
    unfold interpolate_matrix_2D
    rw [if_pos hshape]
  rw [hok]
  show ((resampleGrid M xin yin xout yout).getD i []).getD j 0 = 0
  unfold resampleGrid
  rw [getD_map_eq _ xout i hi [] 0]
  rw [getD_map_eq _ yout j hj 0 0]
  unfold resampleEntry
  rw [if_neg ?_]
  intro hc
  obtain ⟨k1, k2, k3, k4⟩ := hc
  rcases h with hle | hle | hle | hle
  · exact absurd k1 (not_lt.mpr hle)
  · exact absurd k2 (not_lt.mpr hle)
  · exact absurd k3 (not_lt.mpr hle)
  · exact absurd k4 (not_lt.mpr hle)

/-- Witness for C10: resampling the 2x2 all-ones matrix onto its own axes
`[0, 1]` zeroes the first row's first cell (its coordinate equals the
source-axis start). -/
theorem C10_mask_inclusive_witness :
    ((okD [] (interpolate_matrix_2D [[1, 1], [1, 1]] [0, 1] [0, 1]
        [0, 1] [0, 1])).getD 0 []).getD 0 0 = 0 :=
  C10_mask_inclusive [[1, 1], [1, 1]] [0, 1] [0, 1] [0, 1] [0, 1]
    (by decide) 0 0 (by decide) (by decide)
    (Or.inl (by decide))

end OCL
